import Mathlib

/-!
Verification of the zk-battleship client-side game-protocol engine.

Shallow embedding of the TypeScript sources:
  * `src/games/battleship/src/utils/board.ts`    — board editing, salt generation
  * `src/games/battleship/src/utils/contract.ts` — XDR decoding, game-state codec,
    remote-call pipeline, contract wrappers
  * `src/unnamed/part_006`                       — the polling synchronizer hook
  * `src/unnamed/part_002`                       — turn derivation in the play phase
  * `src/games/battleship/src/components/GameOver.tsx` (second unit) — turn timer

Machine integers are modelled as `Nat` (the u32 values handled here are produced
by the wire format and never overflow in the modelled code paths); byte values
are `Fin 256` (the TypeScript sources read them from `Uint8Array`s); fallible
code returns `Except` or `Option`.
-/

namespace ZkBattleship

/-! ## Wire value model (xdr.ScVal)

The decoder in `contract.ts` inspects `sv.switch().value` (the XDR tag) and then
calls the matching accessor (`u32()`, `b()`, `bytes()`, `sym()`, `vec()`,
`map()`, `address()`).  We model the tagged value tree as an inductive; the
`unknown`/`scvOther` constructors stand for the wire tags this client does not
recognise (the defensive decoder exists precisely because those can occur). -/

/-- Model of `xdr.ScAddress`: two known kinds plus unrecognised kinds. -/
inductive ScAddress where
  | account (ed25519 : List (Fin 256))
  | contract (cid : List (Fin 256))
  | unknown (tag : Nat)

/-- Model of `xdr.ScVal`: the tagged wire value tree. -/
inductive ScVal where
  | scvBool (b : Bool)
  | scvVoid
  | scvU32 (n : Nat)
  | scvBytes (bs : List (Fin 256))
  | scvString (s : String)
  | scvSymbol (s : String)
  | scvVec (xs : List ScVal)
  | scvMap (entries : List (ScVal × ScVal))
  | scvAddress (a : ScAddress)
  | scvOther (tag : Nat)

/-- Hex rendering of one byte, two lowercase digits
(`b.toString(16).padStart(2, '0')` in the sources). -/
def byteHex2 (b : Fin 256) : List Char :=
  [Nat.digitChar (b.val / 16), Nat.digitChar (b.val % 16)]

/-- Hex rendering of a byte string
(`Array.from(bytes).map(b => b.toString(16).padStart(2,'0')).join('')`). -/
def bytesHexChars (bs : List (Fin 256)) : List Char :=
  (bs.map byteHex2).flatten

/-- Models the external `StrKey.encodeEd25519PublicKey` (third-party Stellar SDK,
not repository code): an injective canonical text rendering of an account key.
The exact base-32 alphabet is irrelevant to every claim proved here. -/
def encodeEd25519PublicKey (bs : List (Fin 256)) : String :=
  "G" ++ String.mk (bytesHexChars bs)

/-- Models the external `StrKey.encodeContract` (third-party Stellar SDK,
not repository code): an injective canonical text rendering of a contract id. -/
def encodeContract (bs : List (Fin 256)) : String :=
  "C" ++ String.mk (bytesHexChars bs)

/-- `svAddress` from `contract.ts`: decode an address or fall back to `''`. -/
def svAddress : Option ScVal → String
  | some (.scvAddress (.account bs)) => encodeEd25519PublicKey bs
  | some (.scvAddress (.contract bs)) => encodeContract bs
  | _ => ""

/-- `svU32` from `contract.ts`: decode a u32 or return the caller's fallback. -/
def svU32 : Option ScVal → Nat → Nat
  | some (.scvU32 n), _ => n
  | _, fallback => fallback

/-- `svBool` from `contract.ts`: decode a bool or return `false`. -/
def svBool : Option ScVal → Bool
  | some (.scvBool b) => b
  | _ => false

/-- `svBytes` from `contract.ts`: decode a byte string to `0x`-hex or `''`. -/
def svBytes : Option ScVal → String
  | some (.scvBytes bs) => "0x" ++ String.mk (bytesHexChars bs)
  | _ => ""

/-- Key rendering used by `svMap`: symbol and string keys are accepted, any
other key decodes to `''` and is skipped by the `if (key)` guard. -/
def svMapKeyName : ScVal → String
  | .scvSymbol s => s
  | .scvString s => s
  | _ => ""

/-- `svMap` from `contract.ts`: build the `Record<string, xdr.ScVal>` lookup.
The JS object is modelled as a function `String → Option ScVal`; iteration
order means a later entry with the same key overwrites an earlier one. -/
def svMap : Option ScVal → String → Option ScVal
  | some (.scvMap entries) =>
      entries.foldl
        (fun out e =>
          let k := svMapKeyName e.1
          if k = "" then out else fun q => if q = k then some e.2 else out q)
        (fun _ => none)
  | _ => fun _ => none

/-- `svEnumVariant` from `contract.ts`: vec-with-leading-symbol, bare symbol,
then map-with-leading-symbol-key, else `''`. -/
def svEnumVariant : Option ScVal → String
  | some (.scvVec (.scvSymbol s :: _)) => s
  | some (.scvSymbol s) => s
  | some (.scvMap ((.scvSymbol s, _) :: _)) => s
  | _ => ""

/-- Shape predicate for the amended enum-variant claim: the value carries a
leading symbolic tag (a bare symbol, a sequence whose first element is a
symbol, or a map whose first entry is keyed by a symbol). -/
def hasLeadingSymbolTag : ScVal → Bool
  | .scvSymbol _ => true
  | .scvVec (.scvSymbol _ :: _) => true
  | .scvMap ((.scvSymbol _, _) :: _) => true
  | _ => false

/-! ## Game state codec -/

/-- The four game phases of `GameState['phase']`. -/
inductive Phase where
  | WaitingForPlayers
  | Commit
  | Playing
  | Finished
deriving DecidableEq, Repr

/-- Rendering of a phase as the TS string-union value. -/
def Phase.name : Phase → String
  | .WaitingForPlayers => "WaitingForPlayers"
  | .Commit => "Commit"
  | .Playing => "Playing"
  | .Finished => "Finished"

/-- `GameState` from `contract.ts`. -/
structure GameState where
  player1 : String
  player2 : String
  board_hash_p1 : String
  board_hash_p2 : String
  hits_on_p1 : Nat
  hits_on_p2 : Nat
  shots_fired_p1 : Nat
  shots_fired_p2 : Nat
  turn : String
  phase : Phase
  pending_shot_x : Nat
  pending_shot_y : Nat
  pending_shooter : String
  winner : String
  has_winner : Bool
  p1_committed : Bool
  p2_committed : Bool
  p1_joined : Bool
  p2_joined : Bool
  session_id : Nat
deriving DecidableEq, Repr

/-- `NO_SHOT = 4294967295` (u32::MAX), the "no pending shot" sentinel. -/
def NO_SHOT : Nat := 4294967295

/-- The phase-recognition chain of `parseGameState`: default to
`WaitingForPlayers` when the variant name is unrecognised. -/
def phaseOfVariant (variant : String) : Phase :=
  if variant = "Commit" then .Commit
  else if variant = "Playing" then .Playing
  else if variant = "Finished" then .Finished
  else .WaitingForPlayers

/-- `parseGameState` from `contract.ts`: decode every field with its extractor,
defaulting per field, the phase via the enum-variant decoder. -/
def parseGameState (retval : ScVal) : GameState :=
  let f := svMap (some retval)
  let phase := phaseOfVariant (svEnumVariant (f "phase"))
  { player1         := svAddress (f "player1")
    player2         := svAddress (f "player2")
    board_hash_p1   := svBytes (f "board_hash_p1")
    board_hash_p2   := svBytes (f "board_hash_p2")
    hits_on_p1      := svU32 (f "hits_on_p1") 0
    hits_on_p2      := svU32 (f "hits_on_p2") 0
    shots_fired_p1  := svU32 (f "shots_fired_p1") 0
    shots_fired_p2  := svU32 (f "shots_fired_p2") 0
    turn            := svAddress (f "turn")
    phase           := phase
    pending_shot_x  := svU32 (f "pending_shot_x") NO_SHOT
    pending_shot_y  := svU32 (f "pending_shot_y") NO_SHOT
    pending_shooter := svAddress (f "pending_shooter")
    winner          := svAddress (f "winner")
    has_winner      := svBool (f "has_winner")
    p1_committed    := svBool (f "p1_committed")
    p2_committed    := svBool (f "p2_committed")
    p1_joined       := svBool (f "p1_joined")
    p2_joined       := svBool (f "p2_joined")
    session_id      := svU32 (f "session_id") 0 }

/-- Tag test: is this value a `scvU32` node? -/
def isU32Tag : ScVal → Bool
  | .scvU32 _ => true
  | _ => false

/-- Tag test: is this value a `scvBool` node? -/
def isBoolTag : ScVal → Bool
  | .scvBool _ => true
  | _ => false

/-- Tag test: is this value a `scvBytes` node? -/
def isBytesTag : ScVal → Bool
  | .scvBytes _ => true
  | _ => false

/-- Tag test: is this value a `scvAddress` node of one of the two known kinds? -/
def isKnownAddressTag : ScVal → Bool
  | .scvAddress (.account _) => true
  | .scvAddress (.contract _) => true
  | _ => false

/-- Tag test: is this value a `scvMap` node? -/
def isMapTag : ScVal → Bool
  | .scvMap _ => true
  | _ => false

/-- The `GameState` consisting purely of per-field defaults: empty strings,
zero counters, sentinel pending shot, `WaitingForPlayers`, false flags. -/
def defaultGameState : GameState :=
  { player1 := "", player2 := "", board_hash_p1 := "", board_hash_p2 := ""
    hits_on_p1 := 0, hits_on_p2 := 0, shots_fired_p1 := 0, shots_fired_p2 := 0
    turn := "", phase := .WaitingForPlayers
    pending_shot_x := NO_SHOT, pending_shot_y := NO_SHOT
    pending_shooter := "", winner := "", has_winner := false
    p1_committed := false, p2_committed := false
    p1_joined := false, p2_joined := false, session_id := 0 }

/-! ## Board utilities (`board.ts`)

A board is `number[][]`; ships are `1`, water `0`.  `toggleCell` copies the
board (`board.map(r => [...r])`) and mutates one cell of the copy; we model the
copy-and-mutate as a functional `set` at one position. -/

/-- `Board = number[][]`. -/
abbrev Board := List (List Nat)

/-- `BOARD_SIZE = 5`. -/
def BOARD_SIZE : Nat := 5

/-- `TOTAL_SHIPS = 3`. -/
def TOTAL_SHIPS : Nat := 3

/-- `countShips`: `board.flat().reduce((sum, cell) => sum + cell, 0)`. -/
def countShips (board : Board) : Nat :=
  board.flatten.sum

/-- Read `board[row][col]` (all uses are guarded to be in range). -/
def cellAt (board : Board) (row col : Nat) : Nat :=
  (board.getD row []).getD col 0

/-- Write `v` at `board[row][col]` on a fresh copy of the board. -/
def setCell (board : Board) (row col v : Nat) : Board :=
  board.set row ((board.getD row []).set col v)

/-- `toggleCell` from `board.ts`: clear a ship cell, or place a ship only while
under the `TOTAL_SHIPS` budget, otherwise return the board unchanged. -/
def toggleCell (board : Board) (row col : Nat) : Board :=
  if cellAt board row col = 1 then setCell board row col 0
  else if countShips board < TOTAL_SHIPS then setCell board row col 1
  else board

/-- `emptyBoard`: a 5×5 all-zero grid. -/
def emptyBoard : Board :=
  List.replicate BOARD_SIZE (List.replicate BOARD_SIZE 0)

/-! ## Turn derivation (`PlayPhase`, `src/unnamed/part_002`) -/

/-- `isMyTurn = gameState.turn === playerAddress`. -/
def isMyTurn (gs : GameState) (me : String) : Bool :=
  gs.turn == me

/-- `hasPendingShot = gameState.pending_shot_x !== NO_SHOT`. -/
def hasPendingShot (gs : GameState) : Bool :=
  gs.pending_shot_x != NO_SHOT

/-- `needToFire = isMyTurn && !hasPendingShot`. -/
def needToFire (gs : GameState) (me : String) : Bool :=
  isMyTurn gs me && !hasPendingShot gs

/-- `needToRespond = isMyTurn && hasPendingShot`. -/
def needToRespond (gs : GameState) (me : String) : Bool :=
  isMyTurn gs me && hasPendingShot gs

/-! ## Salt generation (`generateSalt`, `board.ts`)

The randomness source (`crypto.getRandomValues`) fills a 32-byte buffer; the
function is modelled on those bytes.  The reduction `raw % BN254_MODULUS` and
the fixed-width hex rendering follow the source. -/

/-- The BN254 scalar field modulus used by `generateSalt`. -/
def BN254_MODULUS : Nat :=
  21888242871839275222246405745257275088548364400416034343698204186575808495617

/-- Value of a hexadecimal digit character; non-digits map to 0 (all strings
this development parses consist of valid digits). -/
def hexCharVal (c : Char) : Nat :=
  if '0' ≤ c ∧ c ≤ '9' then c.toNat - 48
  else if 'a' ≤ c ∧ c ≤ 'f' then c.toNat - 87
  else if 'A' ≤ c ∧ c ≤ 'F' then c.toNat - 55
  else 0

/-- Big-endian hex parse of a digit list (`BigInt('0x…')` on valid digits). -/
def parseHexChars (l : List Char) : Nat :=
  l.foldl (fun a c => 16 * a + hexCharVal c) 0

/-- Parse a hex string, stripping an optional `0x` prefix, as an integer. -/
def parseHex0x (s : String) : Nat :=
  match s.data with
  | '0' :: 'x' :: rest => parseHexChars rest
  | l => parseHexChars l

/-- Lowercase hex rendering of a natural number (`n.toString(16)` in JS):
most-significant digit first, `"0"` for zero. -/
def natToHexChars (n : Nat) : List Char :=
  if n = 0 then ['0'] else (Nat.digits 16 n).reverse.map Nat.digitChar

/-- `padStart(w, c)` on a character list. -/
def padStartChars (w : Nat) (c : Char) (l : List Char) : List Char :=
  List.replicate (w - l.length) c ++ l

/-- `generateSalt` from `board.ts`: hex-encode the 32 random bytes, parse as a
big integer, reduce modulo the BN254 field, render as `0x` + 64 hex digits. -/
def generateSalt (bytes : List (Fin 256)) : String :=
  let raw := parseHexChars (bytesHexChars bytes)
  let reduced := raw % BN254_MODULUS
  String.mk ('0' :: 'x' :: padStartChars 64 '0' (natToHexChars reduced))

/-! ## Hex decoding and the commit-board guard (`contract.ts`) -/

/-- `parseInt(d, 16)` digit recognition: both letter cases are accepted. -/
def hexDigitVal : Char → Option Nat := fun c =>
  if ('0' ≤ c ∧ c ≤ '9') ∨ ('a' ≤ c ∧ c ≤ 'f') ∨ ('A' ≤ c ∧ c ≤ 'F')
  then some (hexCharVal c) else none

/-- `parseInt(two-char slice, 16)` stored into a `Uint8Array` cell: an invalid
first digit yields `NaN`, which the typed array coerces to `0`; a valid first
digit followed by an invalid one parses the one-digit prefix. -/
def parseIntByte (c1 c2 : Char) : Nat :=
  match hexDigitVal c1, hexDigitVal c2 with
  | none, _ => 0
  | some v1, none => v1
  | some v1, some v2 => 16 * v1 + v2

/-- `hex.startsWith('0x') ? hex.slice(2) : hex`. -/
def strip0x : List Char → List Char
  | '0' :: 'x' :: rest => rest
  | l => l

/-- `hexToBytes` from `contract.ts`: strip `0x`, left-pad to 64 digits, then
fill a fixed 32-slot byte array from consecutive 2-digit slices. -/
def hexToBytes (hex : String) : List Nat :=
  let clean := strip0x hex.data
  let padded := padStartChars 64 '0' clean
  (List.range 32).map fun i => parseIntByte (padded.getD (2 * i) '0') (padded.getD (2 * i + 1) '0')

/-- The hash-length guard inside `commitBoard`: throw when `hexToBytes` did not
produce 32 bytes, otherwise continue with those bytes. -/
def commitBoardHashGuard (boardHashHex : String) : Except String (List Nat) :=
  let hashBytes := hexToBytes boardHashHex
  if hashBytes.length ≠ 32
  then .error ("Board hash must be 32 bytes, got " ++ toString hashBytes.length)
  else .ok hashBytes

/-! ## State synchronizer (`useGameState`, `src/unnamed/part_006`) -/

/-- The ways a `get_state` poll can resolve, from `fetchGameState` in
`contract.ts`: missing contract id, a thrown network error, a simulation
error response, a response with no return value, or a decoded return value. -/
inductive FetchOutcome where
  | noContractId
  | networkError
  | simulationError
  | noRetval
  | retval (v : ScVal)

/-- `fetchGameState` from `contract.ts`: every failure is caught and mapped to
`null` (`none`); only a successful simulation with a return value is parsed. -/
def fetchGameState : FetchOutcome → Option GameState
  | .retval v => some (parseGameState v)
  | _ => none

/-- The synchronizer's state: the cached snapshot and the last error. -/
structure SyncState where
  gameState : Option GameState
  lastError : Option String
deriving DecidableEq, Repr

/-- `refresh` from `useGameState` (`src/unnamed/part_006`): store the fetch
result and clear the error.  The `catch` branch that would set the error can
only run when `fetchGameState` throws, and `fetchGameState` catches every
failure internally and returns `null`, so `refresh` always takes this path. -/
def refresh (_st : SyncState) (r : FetchOutcome) : SyncState :=
  { gameState := fetchGameState r, lastError := none }

/-! ## joinGame pre-flight (`contract.ts`) -/

/-- A state-changing contract invocation issued through `invokeContract`. -/
structure ContractCall where
  method : String
  args : List String
deriving DecidableEq, Repr

/-- `requireAddress` from `contract.ts`.  Whether the external SDK `Address`
constructor accepts the string is an input to the model (`parses`). -/
def requireAddress (parses : String → Bool) (addr field : String) : Except String String :=
  if addr.trim = "" then .error (field ++ " is required")
  else if parses addr.trim then .ok addr.trim
  else .error (field ++ " is not a valid Stellar address")

/-- `joinGame` from `contract.ts`, modelled on the pre-fetched game state:
the two pre-flight guards run before any state-changing invocation, so an
error result means `invokeContract('join_game', …)` was never issued. -/
def joinGame (parses : String → Bool) (state : Option GameState)
    (playerAddress : String) : Except String ContractCall :=
  match state with
  | some s =>
    if s.phase ≠ Phase.WaitingForPlayers then
      .error ("Game already active (" ++ s.phase.name ++ "). Reset the contract first.")
    else if s.p1_joined && s.player1 == playerAddress then
      .error "You already joined as Player 1."
    else
      (requireAddress parses playerAddress "Player").map fun v =>
        { method := "join_game", args := [v] }
  | none =>
      (requireAddress parses playerAddress "Player").map fun v =>
        { method := "join_game", args := [v] }

/-! ## Confirmation polling (`invokeContract`, `contract.ts`) -/

/-- Transaction status returned by `server.getTransaction`. -/
inductive TxStatus where
  | SUCCESS
  | FAILED
  | NOT_FOUND
deriving DecidableEq, Repr

/-- The number of status-poll attempts in `invokeContract` (`i < 20`). -/
def CONFIRM_ATTEMPTS : Nat := 20

/-- The confirmation loop of `invokeContract`: return on `SUCCESS`, throw an
on-chain-failure error on `FAILED`, keep polling otherwise, and throw a
confirmation-timeout error once the attempts are exhausted. -/
def confirmLoop (polls : Nat → TxStatus) : Nat → Nat → Except String Unit
  | 0, _ => .error "Transaction confirmation timeout"
  | fuel + 1, i =>
    match polls i with
    | .SUCCESS => .ok ()
    | .FAILED => .error "Transaction failed on-chain"
    | .NOT_FOUND => confirmLoop polls fuel (i + 1)

/-- Confirmation polling after submission, indexed by the attempt number. -/
def confirmTx (polls : Nat → TxStatus) : Except String Unit :=
  confirmLoop polls CONFIRM_ATTEMPTS 0

/-! ## Turn timer (`useTurnTimer`, second unit of `GameOver.tsx`)

The hook is modelled as a transition system.  One `tick` is one firing of the
1000 ms interval, so tick counts measure elapsed seconds.  `keyChange` is the
`useEffect([turnKey])` body; `setTurn` is a change of the `isMyTurn` prop
(which only re-arms or clears the interval).  The interval exists only while
`isMyTurn` holds, so a tick with `isMyTurn = false` leaves the state as is. -/

/-- `TURN_SECONDS = 300`. -/
def TURN_SECONDS : Nat := 300

/-- The urgency tier of the timer display. -/
inductive TimerUrgency where
  | normal
  | warning
  | critical
deriving DecidableEq, Repr

/-- `seconds < 60 ? 'critical' : seconds < 120 ? 'warning' : 'normal'`. -/
def urgencyOf (seconds : Nat) : TimerUrgency :=
  if seconds < 60 then .critical else if seconds < 120 then .warning else .normal

/-- The hook's state: the two `useState` cells plus the observed prop. -/
structure TimerState where
  seconds : Nat
  expired : Bool
  myTurn : Bool
deriving DecidableEq, Repr

/-- Events driving the timer. -/
inductive TimerEvent where
  | keyChange
  | setTurn (b : Bool)
  | tick
deriving DecidableEq, Repr

/-- One step of the timer: `keyChange` restores the full duration and clears
the expired latch; `tick` (only effective while `myTurn`) decrements, and on
reaching the end sets `expired` and pins `seconds` at 0. -/
def timerStep (s : TimerState) : TimerEvent → TimerState
  | .keyChange => { s with seconds := TURN_SECONDS, expired := false }
  | .setTurn b => { s with myTurn := b }
  | .tick =>
    if s.myTurn then
      if s.seconds ≤ 1 then { s with seconds := 0, expired := true }
      else { s with seconds := s.seconds - 1 }
    else s

/-- Run the timer over a sequence of events. -/
def timerRun (s : TimerState) (evs : List TimerEvent) : TimerState :=
  evs.foldl timerStep s

/-- Number of interval firings in an event sequence. -/
def tickCount (evs : List TimerEvent) : Nat :=
  evs.countP (fun e => e == TimerEvent.tick)

section ListLemmas

variable {α : Type _}

theorem list_getD_set_self (l : List α) (i : Nat) (v d : α) (h : i < l.length) :
    (l.set i v).getD i d = v := by
  rw [List.getD_eq_getElem?_getD, List.getElem?_set_eq_of_lt _ h]
  rfl

theorem list_set_getD_self (l : List α) (i : Nat) (d : α) (h : i < l.length) :
    l.set i (l.getD i d) = l := by
  induction l generalizing i with
  | nil => simp at h
  | cons x xs ih =>
    cases i with
    | zero => simp [List.set, List.getD]
    | succ j =>
      simp only [List.length_cons, Nat.succ_lt_succ_iff] at h
      simp only [List.getD_cons_succ, List.set_cons_succ, List.cons.injEq, true_and]
      exact ih _ h

theorem list_sum_set (l : List Nat) (i v : Nat) (h : i < l.length) :
    (l.set i v).sum + l.getD i 0 = l.sum + v := by
  induction l generalizing i with
  | nil => simp at h
  | cons x xs ih =>
    cases i with
    | zero => simp [List.set]; omega
    | succ j =>
      simp only [List.length_cons, Nat.succ_lt_succ_iff] at h
      have := ih j h
      simp only [List.set, List.sum_cons, List.getD_cons_succ]
      omega

theorem list_getD_le_sum (l : List Nat) (i : Nat) :
    l.getD i 0 ≤ l.sum := by
  induction l generalizing i with
  | nil => simp [List.getD]
  | cons x xs ih =>
    cases i with
    | zero => simp [List.getD]
    | succ j =>
      have := ih j
      simp only [List.getD_cons_succ, List.sum_cons]
      omega

theorem list_getD_map_sum (b : Board) (r : Nat) (h : r < b.length) :
    (b.map List.sum).getD r 0 = (b.getD r []).sum := by
  induction b generalizing r with
  | nil => simp at h
  | cons x xs ih =>
    cases r with
    | zero => simp [List.getD]
    | succ j =>
      simp only [List.length_cons, Nat.succ_lt_succ_iff] at h
      simp only [List.map_cons, List.getD_cons_succ]
      exact ih _ h

end ListLemmas

/-- The count after one cell write: old cell value out, new value in. -/
theorem countShips_setCell (b : Board) (r c v : Nat)
    (hr : r < b.length) (hc : c < (b.getD r []).length) :
    countShips (setCell b r c v) + cellAt b r c = countShips b + v := by
  have hmap : ∀ bb : Board, countShips bb = (bb.map List.sum).sum := by
    intro bb; simp [countShips, List.sum_flatten]
  have hrow := list_sum_set (b.getD r []) c v hc
  have houter := list_sum_set (b.map List.sum) r ((b.getD r []).set c v).sum
    (by simpa using hr)
  rw [hmap, hmap]
  simp only [setCell, List.map_set]
  rw [list_getD_map_sum b r hr] at houter
  simp only [cellAt]
  omega

/-- Cell value after writing that same cell. -/
theorem cellAt_setCell (b : Board) (r c v : Nat)
    (hr : r < b.length) (hc : c < (b.getD r []).length) :
    cellAt (setCell b r c v) r c = v := by
  unfold cellAt setCell
  rw [list_getD_set_self _ _ _ _ hr, list_getD_set_self _ _ _ _ hc]

/-- Row lengths are unchanged by a cell write. -/
theorem setCell_row_length (b : Board) (r c v : Nat) :
    ((setCell b r c v).getD r []).length = (b.getD r []).length := by
  unfold setCell
  by_cases hr : r < b.length
  · rw [list_getD_set_self _ _ _ _ hr]
    simp
  · rw [List.set_eq_of_length_le (by omega)]

/-- The board length is unchanged by a cell write. -/
theorem setCell_length (b : Board) (r c v : Nat) :
    (setCell b r c v).length = b.length := by
  simp [setCell]

/-- Writing the same cell twice keeps only the last write. -/
theorem setCell_setCell (b : Board) (r c v w : Nat) (hr : r < b.length) :
    setCell (setCell b r c v) r c w = setCell b r c w := by
  unfold setCell
  rw [list_getD_set_self _ _ _ _ hr]
  simp [List.set_set]

/-- Writing back the value a cell already holds is the identity. -/
theorem setCell_cellAt (b : Board) (r c : Nat)
    (hr : r < b.length) (hc : c < (b.getD r []).length) :
    setCell b r c (cellAt b r c) = b := by
  unfold setCell cellAt
  rw [list_set_getD_self _ _ _ hc, list_set_getD_self _ _ _ hr]

/-- A cell of an in-range position is one of the board's stored values. -/
theorem cellAt_cases (b : Board) (r c : Nat)
    (hr : r < b.length) (hc : c < (b.getD r []).length)
    (hcells : ∀ row ∈ b, ∀ x ∈ row, x = 0 ∨ x = 1) :
    cellAt b r c = 0 ∨ cellAt b r c = 1 := by
  have hrow : b.getD r [] ∈ b := by
    rw [List.getD_eq_getElem b [] hr]
    exact List.getElem_mem hr
  have hcell : (b.getD r []).getD c 0 ∈ b.getD r [] := by
    rw [List.getD_eq_getElem _ 0 hc]
    exact List.getElem_mem hc
  exact hcells _ hrow _ hcell

/-- The value of an in-range cell is at most the total ship count. -/
theorem cellAt_le_countShips (b : Board) (r c : Nat) (hr : r < b.length) :
    cellAt b r c ≤ countShips b := by
  have h1 : (b.getD r []).getD c 0 ≤ (b.getD r []).sum := list_getD_le_sum _ _
  have h2 : (b.getD r []).sum ≤ countShips b := by
    rw [show countShips b = (b.map List.sum).sum from by simp [countShips, List.sum_flatten]]
    rw [← list_getD_map_sum b r hr]
    exact list_getD_le_sum _ _
  exact le_trans h1 h2

/-- C5: on a board whose cells are all 0 or 1 with at most `TOTAL_SHIPS` ships,
double-toggling any in-range cell restores the original board, a single toggle
never exceeds the ship budget, and toggling an empty cell with a full budget is
a no-op rather than an error. -/
theorem toggleCell_double_toggle_and_budget (b : Board) (r c : Nat)
    (hr : r < b.length) (hc : c < (b.getD r []).length)
    (hcells : ∀ row ∈ b, ∀ x ∈ row, x = 0 ∨ x = 1)
    (hcount : countShips b ≤ TOTAL_SHIPS) :
    toggleCell (toggleCell b r c) r c = b ∧
    countShips (toggleCell b r c) ≤ TOTAL_SHIPS ∧
    (cellAt b r c = 0 → countShips b = TOTAL_SHIPS → toggleCell b r c = b) := by
  have hx := cellAt_cases b r c hr hc hcells
  by_cases hx1 : cellAt b r c = 1
  · -- removing a ship, then putting it back
    have e1 : toggleCell b r c = setCell b r c 0 := by
      rw [toggleCell, if_pos hx1]
    have hcnt := countShips_setCell b r c 0 hr hc
    have hge : 1 ≤ countShips b := by
      have := cellAt_le_countShips b r c hr
      omega
    have hlt : countShips (setCell b r c 0) < TOTAL_SHIPS := by
      rw [hx1] at hcnt
      unfold TOTAL_SHIPS at hcount ⊢
      omega
    have hcell0 : cellAt (setCell b r c 0) r c = 0 := cellAt_setCell b r c 0 hr hc
    have e2 : toggleCell (setCell b r c 0) r c = setCell (setCell b r c 0) r c 1 := by
      rw [toggleCell, if_neg (by rw [hcell0]; omega), if_pos hlt]
    refine ⟨?_, ?_, ?_⟩
    · rw [e1, e2, setCell_setCell b r c 0 1 hr, ← hx1, setCell_cellAt b r c hr hc]
    · rw [e1]; rw [hx1] at hcnt; unfold TOTAL_SHIPS at hcount ⊢; omega
    · intro h0 _; rw [h0] at hx1; omega
  · -- the cell is water
    have hx0 : cellAt b r c = 0 := by
      cases hx with
      | inl h => exact h
      | inr h => exact absurd h hx1
    by_cases hlt : countShips b < TOTAL_SHIPS
    · -- placing a ship, then removing it
      have e1 : toggleCell b r c = setCell b r c 1 := by
        rw [toggleCell, if_neg hx1, if_pos hlt]
      have hcnt := countShips_setCell b r c 1 hr hc
      rw [hx0] at hcnt
      have hcell1 : cellAt (setCell b r c 1) r c = 1 := cellAt_setCell b r c 1 hr hc
      have e2 : toggleCell (setCell b r c 1) r c = setCell (setCell b r c 1) r c 0 := by
        rw [toggleCell, if_pos hcell1]
      refine ⟨?_, ?_, ?_⟩
      · rw [e1, e2, setCell_setCell b r c 1 0 hr, ← hx0, setCell_cellAt b r c hr hc]
      · rw [e1]; unfold TOTAL_SHIPS at hlt ⊢; omega
      · intro _ hfull; omega
    · -- budget exhausted: both toggles are no-ops
      have e1 : toggleCell b r c = b := by
        rw [toggleCell, if_neg hx1, if_neg hlt]
      refine ⟨?_, ?_, fun _ _ => e1⟩
      · rw [e1, e1]
      · rw [e1]; exact hcount

/-- Witness for C5 at a concrete 5×5 board with two ships. -/
theorem toggleCell_double_toggle_and_budget_witness :
    toggleCell (toggleCell [[1,1,0,0,0],[0,0,0,0,0],[0,0,0,0,0],[0,0,0,0,0],[0,0,0,0,0]] 0 2) 0 2
      = [[1,1,0,0,0],[0,0,0,0,0],[0,0,0,0,0],[0,0,0,0,0],[0,0,0,0,0]] ∧
    countShips (toggleCell [[1,1,0,0,0],[0,0,0,0,0],[0,0,0,0,0],[0,0,0,0,0],[0,0,0,0,0]] 0 2)
      ≤ TOTAL_SHIPS ∧
    (cellAt [[1,1,0,0,0],[0,0,0,0,0],[0,0,0,0,0],[0,0,0,0,0],[0,0,0,0,0]] 0 2 = 0 →
      countShips [[1,1,0,0,0],[0,0,0,0,0],[0,0,0,0,0],[0,0,0,0,0],[0,0,0,0,0]] = TOTAL_SHIPS →
      toggleCell [[1,1,0,0,0],[0,0,0,0,0],[0,0,0,0,0],[0,0,0,0,0],[0,0,0,0,0]] 0 2
        = [[1,1,0,0,0],[0,0,0,0,0],[0,0,0,0,0],[0,0,0,0,0],[0,0,0,0,0]]) :=
  toggleCell_double_toggle_and_budget
    [[1,1,0,0,0],[0,0,0,0,0],[0,0,0,0,0],[0,0,0,0,0],[0,0,0,0,0]] 0 2
    (by decide) (by decide) (by decide) (by decide)

/-- C6: `needToFire` holds exactly when it is the local player's turn and the
pending-shot x-coordinate is the `NO_SHOT` sentinel; `needToRespond` holds
exactly when it is the local player's turn and the coordinate differs from the
sentinel; when it is the local player's turn, exactly one of the two holds. -/
theorem needToFire_needToRespond_characterization (gs : GameState) (me : String) :
    (needToFire gs me = true ↔ gs.turn = me ∧ gs.pending_shot_x = NO_SHOT) ∧
    (needToRespond gs me = true ↔ gs.turn = me ∧ gs.pending_shot_x ≠ NO_SHOT) ∧
    (gs.turn = me → needToFire gs me ≠ needToRespond gs me) := by
  unfold needToFire needToRespond isMyTurn hasPendingShot
  refine ⟨?_, ?_, ?_⟩
  · simp [Bool.and_eq_true, beq_iff_eq, bne]
  · simp [Bool.and_eq_true, beq_iff_eq, bne]
  · intro hturn
    by_cases h : gs.pending_shot_x = NO_SHOT <;> simp [hturn, h, bne]

/-- Witness for C6 at a concrete state where it is the local player's turn. -/
theorem needToFire_needToRespond_characterization_witness :
    (needToFire { defaultGameState with turn := "GME" } "GME" = true ↔
      ({ defaultGameState with turn := "GME" } : GameState).turn = "GME" ∧
      ({ defaultGameState with turn := "GME" } : GameState).pending_shot_x = NO_SHOT) ∧
    (needToRespond { defaultGameState with turn := "GME" } "GME" = true ↔
      ({ defaultGameState with turn := "GME" } : GameState).turn = "GME" ∧
      ({ defaultGameState with turn := "GME" } : GameState).pending_shot_x ≠ NO_SHOT) ∧
    (({ defaultGameState with turn := "GME" } : GameState).turn = "GME" →
      needToFire { defaultGameState with turn := "GME" } "GME" ≠
      needToRespond { defaultGameState with turn := "GME" } "GME") :=
  needToFire_needToRespond_characterization { defaultGameState with turn := "GME" } "GME"

/-- C3 counterexample: a two-element sequence headed by a symbolic tag is not
one of the three unit-variant encodings, yet the decoder returns the symbol
name rather than the empty string. -/
theorem svEnumVariant_other_shape_counterexample :
    svEnumVariant (some (ScVal.scvVec [ScVal.scvSymbol "Commit", ScVal.scvU32 0])) = "Commit" ∧
    ("Commit" : String) ≠ "" :=
  ⟨rfl, by decide⟩

/-- C3 (amended): the decoder returns the variant name for the three unit
encodings — and more generally whenever the value carries a leading symbolic
tag, tuple/struct payloads included — and returns the empty string exactly for
values without a leading symbolic tag (and for an absent value). -/
theorem svEnumVariant_characterization (name : String) (rest : List ScVal)
    (v : ScVal) (entries : List (ScVal × ScVal)) :
    svEnumVariant (some (ScVal.scvSymbol name)) = name ∧
    svEnumVariant (some (ScVal.scvVec [ScVal.scvSymbol name])) = name ∧
    svEnumVariant (some (ScVal.scvMap [(ScVal.scvSymbol name, v)])) = name ∧
    svEnumVariant (some (ScVal.scvVec (ScVal.scvSymbol name :: rest))) = name ∧
    svEnumVariant (some (ScVal.scvMap ((ScVal.scvSymbol name, v) :: entries))) = name ∧
    (∀ sv : ScVal, hasLeadingSymbolTag sv = false → svEnumVariant (some sv) = "") ∧
    svEnumVariant none = "" := by
  refine ⟨rfl, rfl, rfl, rfl, rfl, ?_, rfl⟩
  intro sv h
  cases sv with
  | scvBool b => rfl
  | scvVoid => rfl
  | scvU32 n => rfl
  | scvBytes bs => rfl
  | scvString s => rfl
  | scvSymbol s => exact absurd h (by simp [hasLeadingSymbolTag])
  | scvAddress a => rfl
  | scvOther t => rfl
  | scvVec xs =>
    match xs with
    | [] => rfl
    | .scvSymbol s :: tl => exact absurd h (by simp [hasLeadingSymbolTag])
    | .scvBool b :: tl => rfl
    | .scvVoid :: tl => rfl
    | .scvU32 n :: tl => rfl
    | .scvBytes bs :: tl => rfl
    | .scvString s :: tl => rfl
    | .scvVec ys :: tl => rfl
    | .scvMap es :: tl => rfl
    | .scvAddress a :: tl => rfl
    | .scvOther t :: tl => rfl
  | scvMap entries2 =>
    match entries2 with
    | [] => rfl
    | (.scvSymbol s, w) :: tl => exact absurd h (by simp [hasLeadingSymbolTag])
    | (.scvBool b, w) :: tl => rfl
    | (.scvVoid, w) :: tl => rfl
    | (.scvU32 n, w) :: tl => rfl
    | (.scvBytes bs, w) :: tl => rfl
    | (.scvString s, w) :: tl => rfl
    | (.scvVec ys, w) :: tl => rfl
    | (.scvMap es, w) :: tl => rfl
    | (.scvAddress a, w) :: tl => rfl
    | (.scvOther t, w) :: tl => rfl

/-- Witness for C3 (amended) at a concrete variant name and payloads. -/
theorem svEnumVariant_characterization_witness :
    svEnumVariant (some (ScVal.scvSymbol "Playing")) = "Playing" ∧
    svEnumVariant (some (ScVal.scvVec [ScVal.scvSymbol "Playing"])) = "Playing" ∧
    svEnumVariant (some (ScVal.scvMap [(ScVal.scvSymbol "Playing", ScVal.scvVoid)])) = "Playing" ∧
    svEnumVariant (some (ScVal.scvVec (ScVal.scvSymbol "Playing" :: [ScVal.scvU32 7]))) = "Playing" ∧
    svEnumVariant (some (ScVal.scvMap ((ScVal.scvSymbol "Playing", ScVal.scvVoid) :: []))) = "Playing" ∧
    (∀ sv : ScVal, hasLeadingSymbolTag sv = false → svEnumVariant (some sv) = "") ∧
    svEnumVariant none = "" :=
  svEnumVariant_characterization "Playing" [ScVal.scvU32 7] ScVal.scvVoid []

/-- C4 counterexample: with a cached snapshot present, a failed poll does not
leave the snapshot intact — `fetchGameState` maps the failure to `null`,
`refresh` stores it, and the last-error field is cleared rather than set. -/
theorem refresh_failure_counterexample :
    (refresh { gameState := some defaultGameState, lastError := none }
        FetchOutcome.networkError).gameState ≠ some defaultGameState ∧
    refresh { gameState := some defaultGameState, lastError := none }
        FetchOutcome.networkError = { gameState := none, lastError := none } := by
  exact ⟨by simp [refresh, fetchGameState], rfl⟩

/-- C4 (amended): a poll replaces the cached snapshot with the fresh fetch
result and always clears the last-error field; every failing fetch outcome
yields a `null` snapshot (so a consumer may observe `null` after any failed
poll, not only before the first successful one), and only a successful fetch
with a return value yields a parsed snapshot. -/
theorem refresh_failure_behavior (st : SyncState) (r : FetchOutcome) :
    refresh st r = { gameState := fetchGameState r, lastError := none } ∧
    ((∀ v : ScVal, r ≠ FetchOutcome.retval v) →
      refresh st r = { gameState := none, lastError := none }) ∧
    (∀ v : ScVal, r = FetchOutcome.retval v →
      refresh st r = { gameState := some (parseGameState v), lastError := none }) := by
  refine ⟨rfl, ?_, ?_⟩
  · intro h
    cases r with
    | retval v => exact absurd rfl (h v)
    | noContractId => rfl
    | networkError => rfl
    | simulationError => rfl
    | noRetval => rfl
  · intro v hv
    subst hv
    rfl

/-- Witness for C4 (amended): one failing poll and one successful poll. -/
theorem refresh_failure_behavior_witness :
    refresh { gameState := some defaultGameState, lastError := none }
        FetchOutcome.networkError = { gameState := none, lastError := none } ∧
    refresh { gameState := none, lastError := none } (FetchOutcome.retval ScVal.scvVoid)
      = { gameState := some (parseGameState ScVal.scvVoid), lastError := none } :=
  ⟨(refresh_failure_behavior { gameState := some defaultGameState, lastError := none }
      FetchOutcome.networkError).2.1 (fun _ h => nomatch h),
   (refresh_failure_behavior { gameState := none, lastError := none }
      (FetchOutcome.retval ScVal.scvVoid)).2.2 ScVal.scvVoid rfl⟩

/-- C9: `hexToBytes` fills a fixed 32-slot array for every input string, so the
"Board hash must be 32 bytes" guard in `commitBoard` never fires. -/
theorem hexToBytes_always_32_bytes (s : String) :
    (hexToBytes s).length = 32 ∧ commitBoardHashGuard s = .ok (hexToBytes s) := by
  have hlen : (hexToBytes s).length = 32 := by
    simp [hexToBytes]
  exact ⟨hlen, by simp [commitBoardHashGuard, hlen]⟩

/-- C10: when the pre-flight snapshot exists with a phase other than
`WaitingForPlayers`, or records the caller as an already-joined player 1,
`joinGame` returns an error and never produces the `join_game` invocation. -/
theorem joinGame_preflight_blocks (parses : String → Bool) (s : GameState) (addr : String)
    (h : s.phase ≠ Phase.WaitingForPlayers ∨ (s.p1_joined = true ∧ s.player1 = addr)) :
    (∃ msg, joinGame parses (some s) addr = .error msg) ∧
    ∀ call, joinGame parses (some s) addr ≠ .ok call := by
  by_cases hp : s.phase = Phase.WaitingForPlayers
  · have hj : s.p1_joined = true ∧ s.player1 = addr := by
      cases h with
      | inl h' => exact absurd hp h'
      | inr h' => exact h'
    have e : joinGame parses (some s) addr = .error "You already joined as Player 1." := by
      simp [joinGame, hp, hj.1, hj.2]
    exact ⟨⟨_, e⟩, fun call hc => by rw [e] at hc; cases hc⟩
  · have e : joinGame parses (some s) addr
        = .error ("Game already active (" ++ s.phase.name ++ "). Reset the contract first.") := by
      simp [joinGame, hp]
    exact ⟨⟨_, e⟩, fun call hc => by rw [e] at hc; cases hc⟩

/-- Witness for C10: an active game blocks a join without any invocation. -/
theorem joinGame_preflight_blocks_witness :
    (∃ msg, joinGame (fun _ => true)
        (some { defaultGameState with phase := Phase.Playing }) "X" = .error msg) ∧
    ∀ call, joinGame (fun _ => true)
        (some { defaultGameState with phase := Phase.Playing }) "X" ≠ .ok call :=
  joinGame_preflight_blocks (fun _ => true)
    { defaultGameState with phase := Phase.Playing } "X" (Or.inl (by decide))

/-- C2: every primitive extractor is total, returning the decoded value when
the tag matches and the caller-supplied or type-default fallback otherwise
(absent values included); `svMap` skips non-symbol/string keys and honours the
last entry for a key; and `parseGameState` returns a complete `GameState` for
every input whose every field is its own extractor applied to its own key's
lookup (so one undecodable field cannot affect the others), degrading a
non-map input to the all-defaults state. -/
theorem extractors_total_and_parseGameState_componentwise (fb : Nat) (sv : ScVal) :
    (svU32 none fb = fb) ∧
    (∀ n, svU32 (some (ScVal.scvU32 n)) fb = n) ∧
    (isU32Tag sv = false → svU32 (some sv) fb = fb) ∧
    (svBool none = false) ∧
    (∀ b, svBool (some (ScVal.scvBool b)) = b) ∧
    (isBoolTag sv = false → svBool (some sv) = false) ∧
    (svBytes none = "") ∧
    (∀ bs, svBytes (some (ScVal.scvBytes bs)) = "0x" ++ String.mk (bytesHexChars bs)) ∧
    (isBytesTag sv = false → svBytes (some sv) = "") ∧
    (svAddress none = "") ∧
    (∀ bs, svAddress (some (ScVal.scvAddress (ScAddress.account bs)))
      = encodeEd25519PublicKey bs) ∧
    (∀ bs, svAddress (some (ScVal.scvAddress (ScAddress.contract bs))) = encodeContract bs) ∧
    (isKnownAddressTag sv = false → svAddress (some sv) = "") ∧
    (∀ q, svMap none q = none) ∧
    (isMapTag sv = false → ∀ q, svMap (some sv) q = none) ∧
    (∀ (es : List (ScVal × ScVal)) (k : String) (v : ScVal), k ≠ "" →
      svMap (some (ScVal.scvMap (es ++ [(ScVal.scvSymbol k, v)]))) k = some v) ∧
    (∀ (n : Nat) (v : ScVal) (es : List (ScVal × ScVal)) (q : String),
      svMap (some (ScVal.scvMap ((ScVal.scvU32 n, v) :: es))) q
        = svMap (some (ScVal.scvMap es)) q) ∧
    (∀ v : ScVal,
      (parseGameState v).player1 = svAddress (svMap (some v) "player1") ∧
      (parseGameState v).player2 = svAddress (svMap (some v) "player2") ∧
      (parseGameState v).board_hash_p1 = svBytes (svMap (some v) "board_hash_p1") ∧
      (parseGameState v).board_hash_p2 = svBytes (svMap (some v) "board_hash_p2") ∧
      (parseGameState v).hits_on_p1 = svU32 (svMap (some v) "hits_on_p1") 0 ∧
      (parseGameState v).hits_on_p2 = svU32 (svMap (some v) "hits_on_p2") 0 ∧
      (parseGameState v).shots_fired_p1 = svU32 (svMap (some v) "shots_fired_p1") 0 ∧
      (parseGameState v).shots_fired_p2 = svU32 (svMap (some v) "shots_fired_p2") 0 ∧
      (parseGameState v).turn = svAddress (svMap (some v) "turn") ∧
      (parseGameState v).phase = phaseOfVariant (svEnumVariant (svMap (some v) "phase")) ∧
      (parseGameState v).pending_shot_x = svU32 (svMap (some v) "pending_shot_x") NO_SHOT ∧
      (parseGameState v).pending_shot_y = svU32 (svMap (some v) "pending_shot_y") NO_SHOT ∧
      (parseGameState v).pending_shooter = svAddress (svMap (some v) "pending_shooter") ∧
      (parseGameState v).winner = svAddress (svMap (some v) "winner") ∧
      (parseGameState v).has_winner = svBool (svMap (some v) "has_winner") ∧
      (parseGameState v).p1_committed = svBool (svMap (some v) "p1_committed") ∧
      (parseGameState v).p2_committed = svBool (svMap (some v) "p2_committed") ∧
      (parseGameState v).p1_joined = svBool (svMap (some v) "p1_joined") ∧
      (parseGameState v).p2_joined = svBool (svMap (some v) "p2_joined") ∧
      (parseGameState v).session_id = svU32 (svMap (some v) "session_id") 0) ∧
    (isMapTag sv = false → parseGameState sv = defaultGameState) := by
  refine ⟨rfl, fun n => rfl, ?_, rfl, fun b => rfl, ?_, rfl, fun bs => rfl, ?_,
    rfl, fun bs => rfl, fun bs => rfl, ?_, fun q => rfl, ?_, ?_, ?_, ?_, ?_⟩
  · intro h; cases sv <;> first | rfl | simp [isU32Tag] at h
  · intro h; cases sv <;> first | rfl | simp [isBoolTag] at h
  · intro h; cases sv <;> first | rfl | simp [isBytesTag] at h
  · intro h
    cases sv with
    | scvAddress a => cases a <;> first | rfl | simp [isKnownAddressTag] at h
    | scvBool b => rfl
    | scvVoid => rfl
    | scvU32 n => rfl
    | scvBytes bs => rfl
    | scvString s => rfl
    | scvSymbol s => rfl
    | scvVec xs => rfl
    | scvMap es => rfl
    | scvOther t => rfl
  · intro h q; cases sv <;> first | rfl | simp [isMapTag] at h
  · intro es k v hk
    simp only [svMap, List.foldl_append, List.foldl_cons, List.foldl_nil, svMapKeyName]
    rw [if_neg hk]
    simp
  · intro n v es q
    simp [svMap, svMapKeyName]
  · intro v
    refine ⟨rfl, rfl, rfl, rfl, rfl, rfl, rfl, rfl, rfl, rfl,
      rfl, rfl, rfl, rfl, rfl, rfl, rfl, rfl, rfl, rfl⟩
  · intro h; cases sv <;> first | rfl | simp [isMapTag] at h

/-- Witness for C2: a matching tag decodes to the encoded value, a mismatched
tag falls back, a map lookup honours the entry, and a non-map input degrades
to the all-defaults state. -/
theorem extractors_total_witness :
    svU32 (some (ScVal.scvU32 42)) 7 = 42 ∧
    svU32 (some ScVal.scvVoid) 7 = 7 ∧
    svBool (some ScVal.scvVoid) = false ∧
    svMap (some (ScVal.scvMap ([] ++ [(ScVal.scvSymbol "turn", ScVal.scvU32 5)]))) "turn"
      = some (ScVal.scvU32 5) ∧
    parseGameState ScVal.scvVoid = defaultGameState := by
  obtain ⟨_, hmatch, hmiss, _, _, hbool, _, _, _, _, _, _, _, _, _, hlast, _, _, hdef⟩ :=
    extractors_total_and_parseGameState_componentwise 7 ScVal.scvVoid
  exact ⟨hmatch 42, hmiss rfl, hbool rfl,
    hlast [] "turn" (ScVal.scvU32 5) (by decide), hdef rfl⟩

/-! ### Hex round trip for the salt -/

/-- Parsing inverts rendering on a single hex digit. -/
theorem hexCharVal_digitChar : ∀ d : Nat, d < 16 → hexCharVal (Nat.digitChar d) = d := by
  decide

/-- The hex fold ignores leading `'0'` padding. -/
theorem parseHexChars_replicate_zero (k : Nat) (l : List Char) :
    parseHexChars (List.replicate k '0' ++ l) = parseHexChars l := by
  have h0 : ∀ m : Nat, (List.replicate m '0').foldl (fun a c => 16 * a + hexCharVal c) 0 = 0 := by
    intro m
    induction m with
    | zero => rfl
    | succ j ih => simpa [List.replicate_succ, hexCharVal] using ih
  unfold parseHexChars
  rw [List.foldl_append, h0]

/-- The hex fold inverts the digit rendering of `Nat.digits`. -/
theorem foldr_hex_ofDigits (l : List Nat) (h : ∀ d ∈ l, d < 16) :
    l.foldr (fun d a => 16 * a + hexCharVal (Nat.digitChar d)) 0 = Nat.ofDigits 16 l := by
  induction l with
  | nil => rfl
  | cons d tl ih =>
    have hd : d < 16 := h d (List.mem_cons_self d tl)
    have htl : ∀ x ∈ tl, x < 16 := fun x hx => h x (List.mem_cons_of_mem d hx)
    simp only [List.foldr_cons, ih htl, Nat.ofDigits_cons, hexCharVal_digitChar d hd]
    ring

/-- Parsing inverts the JS `n.toString(16)` rendering. -/
theorem parseHexChars_natToHexChars (n : Nat) : parseHexChars (natToHexChars n) = n := by
  by_cases h0 : n = 0
  · subst h0; rfl
  · unfold natToHexChars parseHexChars
    rw [if_neg h0, List.foldl_map, List.foldl_reverse]
    have hlt : ∀ d ∈ Nat.digits 16 n, d < 16 :=
      fun d hd => Nat.digits_lt_base (by omega) hd
    have := foldr_hex_ofDigits (Nat.digits 16 n) hlt
    simp only [this]
    exact_mod_cast Nat.ofDigits_digits 16 n

/-- C1: for every 32-byte draw of the RNG, the hex string returned by
`generateSalt`, parsed as an integer, equals the byte value reduced modulo the
BN254 field modulus and is therefore strictly below the modulus. -/
theorem generateSalt_below_modulus (bytes : List (Fin 256)) (_h32 : bytes.length = 32) :
    parseHex0x (generateSalt bytes) = parseHexChars (bytesHexChars bytes) % BN254_MODULUS ∧
    parseHex0x (generateSalt bytes) < BN254_MODULUS := by
  have key : parseHex0x (generateSalt bytes)
      = parseHexChars (bytesHexChars bytes) % BN254_MODULUS := by
    show parseHexChars (padStartChars 64 '0'
      (natToHexChars (parseHexChars (bytesHexChars bytes) % BN254_MODULUS)))
      = parseHexChars (bytesHexChars bytes) % BN254_MODULUS
    rw [padStartChars, parseHexChars_replicate_zero, parseHexChars_natToHexChars]
  refine ⟨key, ?_⟩
  rw [key]
  exact Nat.mod_lt _ (by norm_num [BN254_MODULUS])

/-- Witness for C1 at the all-zero 32-byte draw. -/
theorem generateSalt_below_modulus_witness :
    parseHex0x (generateSalt (List.replicate 32 (0 : Fin 256)))
      = parseHexChars (bytesHexChars (List.replicate 32 (0 : Fin 256))) % BN254_MODULUS ∧
    parseHex0x (generateSalt (List.replicate 32 (0 : Fin 256))) < BN254_MODULUS :=
  generateSalt_below_modulus (List.replicate 32 (0 : Fin 256)) (by decide)

/-! ### Confirmation-loop characterization -/

theorem confirmLoop_timeout_iff (polls : Nat → TxStatus) : ∀ (fuel i : Nat),
    confirmLoop polls fuel i = .error "Transaction confirmation timeout" ↔
    ∀ k < fuel, polls (i + k) = .NOT_FOUND := by
  intro fuel
  induction fuel with
  | zero => intro i; simp [confirmLoop]
  | succ f ih =>
    intro i
    cases hp : polls i with
    | SUCCESS =>
      constructor
      · intro h; exact absurd h (by simp [confirmLoop, hp])
      · intro h
        have h0 := h 0 (by omega)
        rw [Nat.add_zero, hp] at h0
        exact TxStatus.noConfusion h0
    | FAILED =>
      constructor
      · intro h
        simp only [confirmLoop, hp, Except.error.injEq] at h
        exact absurd h (by decide)
      · intro h
        have h0 := h 0 (by omega)
        rw [Nat.add_zero, hp] at h0
        exact TxStatus.noConfusion h0
    | NOT_FOUND =>
      have heq : confirmLoop polls (f + 1) i = confirmLoop polls f (i + 1) := by
        simp [confirmLoop, hp]
      rw [heq, ih (i + 1)]
      constructor
      · intro h k hk
        cases k with
        | zero => simpa using hp
        | succ j =>
          have := h j (by omega)
          rw [show i + (j + 1) = i + 1 + j by omega]
          exact this
      · intro h k hk
        have := h (k + 1) (by omega)
        rw [show i + 1 + k = i + (k + 1) by omega]
        exact this

theorem confirmLoop_ok_iff (polls : Nat → TxStatus) : ∀ (fuel i : Nat),
    confirmLoop polls fuel i = .ok () ↔
    ∃ k < fuel, polls (i + k) = .SUCCESS ∧ ∀ j < k, polls (i + j) = .NOT_FOUND := by
  intro fuel
  induction fuel with
  | zero => intro i; simp [confirmLoop]
  | succ f ih =>
    intro i
    cases hp : polls i with
    | SUCCESS =>
      constructor
      · intro _
        exact ⟨0, by omega, by simpa using hp, fun j hj => absurd hj (by omega)⟩
      · intro _; simp [confirmLoop, hp]
    | FAILED =>
      constructor
      · intro h; exact absurd h (by simp [confirmLoop, hp])
      · rintro ⟨k, hk, hS, hN⟩
        cases k with
        | zero => rw [Nat.add_zero, hp] at hS; exact TxStatus.noConfusion hS
        | succ j =>
          have h0 := hN 0 (by omega)
          rw [Nat.add_zero, hp] at h0
          exact TxStatus.noConfusion h0
    | NOT_FOUND =>
      have heq : confirmLoop polls (f + 1) i = confirmLoop polls f (i + 1) := by
        simp [confirmLoop, hp]
      rw [heq, ih (i + 1)]
      constructor
      · rintro ⟨k, hk, hS, hN⟩
        refine ⟨k + 1, by omega, ?_, ?_⟩
        · rw [show i + (k + 1) = i + 1 + k by omega]; exact hS
        · intro j hj
          cases j with
          | zero => simpa using hp
          | succ j' =>
            have := hN j' (by omega)
            rw [show i + (j' + 1) = i + 1 + j' by omega]
            exact this
      · rintro ⟨k, hk, hS, hN⟩
        cases k with
        | zero => rw [Nat.add_zero, hp] at hS; exact TxStatus.noConfusion hS
        | succ j =>
          refine ⟨j, by omega, ?_, ?_⟩
          · rw [show i + 1 + j = i + (j + 1) by omega]; exact hS
          · intro j' hj'
            have := hN (j' + 1) (by omega)
            rw [show i + 1 + j' = i + (j' + 1) by omega]
            exact this

theorem confirmLoop_failed_iff (polls : Nat → TxStatus) : ∀ (fuel i : Nat),
    confirmLoop polls fuel i = .error "Transaction failed on-chain" ↔
    ∃ k < fuel, polls (i + k) = .FAILED ∧ ∀ j < k, polls (i + j) = .NOT_FOUND := by
  intro fuel
  induction fuel with
  | zero => intro i; simp [confirmLoop]
  | succ f ih =>
    intro i
    cases hp : polls i with
    | FAILED =>
      constructor
      · intro _
        exact ⟨0, by omega, by simpa using hp, fun j hj => absurd hj (by omega)⟩
      · intro _; simp [confirmLoop, hp]
    | SUCCESS =>
      constructor
      · intro h; exact absurd h (by simp [confirmLoop, hp])
      · rintro ⟨k, hk, hS, hN⟩
        cases k with
        | zero => rw [Nat.add_zero, hp] at hS; exact TxStatus.noConfusion hS
        | succ j =>
          have h0 := hN 0 (by omega)
          rw [Nat.add_zero, hp] at h0
          exact TxStatus.noConfusion h0
    | NOT_FOUND =>
      have heq : confirmLoop polls (f + 1) i = confirmLoop polls f (i + 1) := by
        simp [confirmLoop, hp]
      rw [heq, ih (i + 1)]
      constructor
      · rintro ⟨k, hk, hS, hN⟩
        refine ⟨k + 1, by omega, ?_, ?_⟩
        · rw [show i + (k + 1) = i + 1 + k by omega]; exact hS
        · intro j hj
          cases j with
          | zero => simpa using hp
          | succ j' =>
            have := hN j' (by omega)
            rw [show i + (j' + 1) = i + 1 + j' by omega]
            exact this
      · rintro ⟨k, hk, hS, hN⟩
        cases k with
        | zero => rw [Nat.add_zero, hp] at hS; exact TxStatus.noConfusion hS
        | succ j =>
          refine ⟨j, by omega, ?_, ?_⟩
          · rw [show i + 1 + j = i + (j + 1) by omega]; exact hS
          · intro j' hj'
            have := hN (j' + 1) (by omega)
            rw [show i + 1 + j' = i + (j' + 1) by omega]
            exact this

theorem confirmLoop_trichotomy (polls : Nat → TxStatus) : ∀ (fuel i : Nat),
    confirmLoop polls fuel i = .ok () ∨
    confirmLoop polls fuel i = .error "Transaction failed on-chain" ∨
    confirmLoop polls fuel i = .error "Transaction confirmation timeout" := by
  intro fuel
  induction fuel with
  | zero => intro i; right; right; rfl
  | succ f ih =>
    intro i
    cases hp : polls i with
    | SUCCESS => left; simp [confirmLoop, hp]
    | FAILED => right; left; simp [confirmLoop, hp]
    | NOT_FOUND =>
      have heq : confirmLoop polls (f + 1) i = confirmLoop polls f (i + 1) := by
        simp [confirmLoop, hp]
      rw [heq]
      exact ih (i + 1)

theorem confirmLoop_congr (polls polls2 : Nat → TxStatus) : ∀ (fuel i : Nat),
    (∀ k < fuel, polls (i + k) = polls2 (i + k)) →
    confirmLoop polls fuel i = confirmLoop polls2 fuel i := by
  intro fuel
  induction fuel with
  | zero => intro i _; rfl
  | succ f ih =>
    intro i h
    have h0 : polls i = polls2 i := by
      have := h 0 (by omega)
      simpa using this
    simp only [confirmLoop]
    rw [h0]
    cases polls2 i with
    | SUCCESS => rfl
    | FAILED => rfl
    | NOT_FOUND =>
      exact ih (i + 1) fun k hk => by
        have := h (k + 1) (by omega)
        rw [show i + (k + 1) = i + 1 + k by omega] at this
        exact this

/-- C8: confirmation polling performs a bounded number of attempts and yields
exactly one of three outcomes — normal return exactly when the first terminal
status within the attempt window is `SUCCESS`, the on-chain-failure error
exactly when it is `FAILED`, and the distinct confirmation-timeout error
exactly when no attempt sees a terminal status; the result depends only on the
first `CONFIRM_ATTEMPTS` poll results. -/
theorem confirmTx_three_outcomes (polls : Nat → TxStatus) :
    (confirmTx polls = .ok () ∨
     confirmTx polls = .error "Transaction failed on-chain" ∨
     confirmTx polls = .error "Transaction confirmation timeout") ∧
    ("Transaction failed on-chain" : String) ≠ "Transaction confirmation timeout" ∧
    (confirmTx polls = .ok () ↔
      ∃ k < CONFIRM_ATTEMPTS, polls k = .SUCCESS ∧ ∀ j < k, polls j = .NOT_FOUND) ∧
    (confirmTx polls = .error "Transaction failed on-chain" ↔
      ∃ k < CONFIRM_ATTEMPTS, polls k = .FAILED ∧ ∀ j < k, polls j = .NOT_FOUND) ∧
    (confirmTx polls = .error "Transaction confirmation timeout" ↔
      ∀ k < CONFIRM_ATTEMPTS, polls k = .NOT_FOUND) ∧
    (∀ polls2 : Nat → TxStatus, (∀ k < CONFIRM_ATTEMPTS, polls k = polls2 k) →
      confirmTx polls = confirmTx polls2) := by
  refine ⟨confirmLoop_trichotomy polls CONFIRM_ATTEMPTS 0, by decide, ?_, ?_, ?_, ?_⟩
  · simpa using confirmLoop_ok_iff polls CONFIRM_ATTEMPTS 0
  · simpa using confirmLoop_failed_iff polls CONFIRM_ATTEMPTS 0
  · simpa using confirmLoop_timeout_iff polls CONFIRM_ATTEMPTS 0
  · intro polls2 h
    exact confirmLoop_congr polls polls2 CONFIRM_ATTEMPTS 0 (by simpa using h)

/-- Witness for C8: each of the three outcomes realised on a concrete poll
sequence. -/
theorem confirmTx_three_outcomes_witness :
    confirmTx (fun _ => TxStatus.SUCCESS) = .ok () ∧
    confirmTx (fun _ => TxStatus.FAILED) = .error "Transaction failed on-chain" ∧
    confirmTx (fun _ => TxStatus.NOT_FOUND) = .error "Transaction confirmation timeout" := by
  obtain ⟨_, _, hok, _, _, _⟩ := confirmTx_three_outcomes (fun _ => TxStatus.SUCCESS)
  obtain ⟨_, _, _, hf, _, _⟩ := confirmTx_three_outcomes (fun _ => TxStatus.FAILED)
  obtain ⟨_, _, _, _, hto, _⟩ := confirmTx_three_outcomes (fun _ => TxStatus.NOT_FOUND)
  exact ⟨hok.mpr ⟨0, by decide, rfl, fun j hj => absurd hj (by omega)⟩,
    hf.mpr ⟨0, by decide, rfl, fun j hj => absurd hj (by omega)⟩,
    hto.mpr (fun k _ => rfl)⟩

/-! ### Turn-timer invariants -/

/-- No event other than a key change can clear the expired latch. -/
theorem timerStep_preserves_expired (s : TimerState) (e : TimerEvent)
    (he : e ≠ TimerEvent.keyChange) (h : s.expired = true) :
    (timerStep s e).expired = true := by
  cases e with
  | keyChange => exact absurd rfl he
  | setTurn b => simpa [timerStep] using h
  | tick =>
    simp only [timerStep]
    split_ifs <;> simp [h]

/-- The expired latch stays set across any key-change-free event sequence. -/
theorem timerRun_expired_latch (evs : List TimerEvent) : ∀ s : TimerState,
    s.expired = true → TimerEvent.keyChange ∉ evs → (timerRun s evs).expired = true := by
  induction evs with
  | nil => intro s h _; exact h
  | cons e rest ih =>
    intro s h hnot
    rw [List.mem_cons, not_or] at hnot
    exact ih (timerStep s e) (timerStep_preserves_expired s e (fun hh => hnot.1 hh.symm) h) hnot.2

/-- While fewer interval ticks than the remaining seconds have fired and no
key change occurred, the expired flag stays clear. -/
theorem timerRun_not_expired (evs : List TimerEvent) : ∀ s : TimerState,
    TimerEvent.keyChange ∉ evs → s.expired = false → tickCount evs < s.seconds →
    (timerRun s evs).expired = false := by
  induction evs with
  | nil => intro s _ h _; exact h
  | cons e rest ih =>
    intro s hnot hex hcnt
    rw [List.mem_cons, not_or] at hnot
    cases e with
    | keyChange => exact absurd rfl (fun hh => hnot.1 hh.symm)
    | setTurn b =>
      show (timerRun { s with myTurn := b } rest).expired = false
      refine ih _ hnot.2 (by simpa using hex) ?_
      have hc2 : tickCount (TimerEvent.setTurn b :: rest) = tickCount rest := by
        simp [tickCount, List.countP_cons]
      rw [hc2] at hcnt
      simpa using hcnt
    | tick =>
      have hc2 : tickCount (TimerEvent.tick :: rest) = tickCount rest + 1 := by
        simp [tickCount, List.countP_cons]
      rw [hc2] at hcnt
      show (timerRun (timerStep s TimerEvent.tick) rest).expired = false
      cases hmt : s.myTurn with
      | false =>
        have hstep : timerStep s TimerEvent.tick = s := by simp [timerStep, hmt]
        rw [hstep]
        exact ih s hnot.2 hex (by omega)
      | true =>
        by_cases hle : s.seconds ≤ 1
        · omega
        · have hstep : timerStep s TimerEvent.tick = { s with seconds := s.seconds - 1 } := by
            simp [timerStep, hmt, hle]
          rw [hstep]
          refine ih _ hnot.2 (by simpa using hex) ?_
          show tickCount rest < s.seconds - 1
          omega

/-- C7: a key change resets the timer to the full duration and clears the
expired latch (and is the only event that can increase the remaining time, so
the reset happens exactly once per distinct turn key); the expired flag is
still clear after any key-change-free run with fewer than `TURN_SECONDS`
interval ticks, and once set it stays set while the key is unchanged; the
remaining time decreases only on a tick taken while the locally-observed
player holds the turn; and the urgency tiers are exactly `critical` below 60
remaining seconds, `warning` below 120, `normal` otherwise. -/
theorem useTurnTimer_behavior (s : TimerState) (e : TimerEvent)
    (evs : List TimerEvent) (n : Nat) :
    timerStep s TimerEvent.keyChange
      = { seconds := TURN_SECONDS, expired := false, myTurn := s.myTurn } ∧
    (TimerEvent.keyChange ∉ evs → tickCount evs < TURN_SECONDS →
      (timerRun (timerStep s TimerEvent.keyChange) evs).expired = false) ∧
    (s.expired = true → TimerEvent.keyChange ∉ evs → (timerRun s evs).expired = true) ∧
    ((timerStep s e).seconds ≠ s.seconds →
      e = TimerEvent.keyChange ∨ (e = TimerEvent.tick ∧ s.myTurn = true)) ∧
    (e ≠ TimerEvent.keyChange → (timerStep s e).seconds ≤ s.seconds) ∧
    ((urgencyOf n = .critical ↔ n < 60) ∧
     (urgencyOf n = .warning ↔ 60 ≤ n ∧ n < 120) ∧
     (urgencyOf n = .normal ↔ 120 ≤ n)) := by
  refine ⟨rfl, ?_, ?_, ?_, ?_, ?_⟩
  · intro hnot hcnt
    exact timerRun_not_expired evs _ hnot rfl hcnt
  · intro hex hnot
    exact timerRun_expired_latch evs s hex hnot
  · intro hne
    cases e with
    | keyChange => exact Or.inl rfl
    | setTurn b => exact absurd rfl hne
    | tick =>
      cases hmt : s.myTurn with
      | true => exact Or.inr ⟨rfl, rfl⟩
      | false =>
        have hstep : timerStep s TimerEvent.tick = s := by simp [timerStep, hmt]
        rw [hstep] at hne
        exact absurd rfl hne
  · intro he
    cases e with
    | keyChange => exact absurd rfl he
    | setTurn b => exact Nat.le_refl _
    | tick =>
      simp only [timerStep]
      split_ifs <;> simp
  · refine ⟨?_, ?_, ?_⟩ <;> unfold urgencyOf <;> split_ifs <;> simp <;> omega

/-- Witness for C7: a reset, a short run staying unexpired, a latched run, and
a mid-range urgency check on concrete inputs. -/
theorem useTurnTimer_behavior_witness :
    timerStep ⟨5, false, true⟩ TimerEvent.keyChange
      = { seconds := TURN_SECONDS, expired := false, myTurn := true } ∧
    (timerRun (timerStep ⟨5, false, true⟩ TimerEvent.keyChange)
      [TimerEvent.tick, TimerEvent.tick]).expired = false ∧
    (timerRun ⟨5, true, true⟩ [TimerEvent.tick, TimerEvent.tick]).expired = true ∧
    (urgencyOf 90 = .warning ↔ 60 ≤ 90 ∧ 90 < 120) := by
  obtain ⟨h1, h2, _, _, _, h6⟩ :=
    useTurnTimer_behavior ⟨5, false, true⟩ TimerEvent.tick
      [TimerEvent.tick, TimerEvent.tick] 90
  obtain ⟨_, _, h3, _, _, _⟩ :=
    useTurnTimer_behavior ⟨5, true, true⟩ TimerEvent.tick
      [TimerEvent.tick, TimerEvent.tick] 90
  exact ⟨h1, h2 (by decide) (by decide), h3 rfl (by decide), h6.2.1⟩

end ZkBattleship
